import Mathlib

/-!
Verification of the Polymarket trading-bot suite's decision engine.

Shallow embedding of `copy_trading_bot.py`, `high_prob_bot.py` and
`config.py`.  Python floats are modelled as exact rationals (`ℚ`); Python's
`round(x, n)` (round-half-to-even on the scaled value) is modelled exactly on
rationals by `pyRound`.  `datetime.date.today()` / `isocalendar()[1]` are
modelled by an abstract `CalDate` carrying a calendar-day index and the ISO
week number, exactly the two quantities the source compares.  Wall-clock
`datetime.now()` used by the failed-order cooldown is modelled as a rational
timestamp measured in minutes.  Order placement is an external call whose
outcome is opaque success (an order id) or failure, passed in as a parameter,
as are all other external inputs (trader trades, market prices, balance).
Free-text log strings are modelled by structured tags carrying the same data.
-/

/-- Round-half-to-even of a rational to an integer, the rounding mode of
Python's builtin `round`. -/
def rhe (q : ℚ) : ℤ :=
  if q - ⌊q⌋ < 1/2 then ⌊q⌋
  else if 1/2 < q - ⌊q⌋ then ⌊q⌋ + 1
  else if ⌊q⌋ % 2 = 0 then ⌊q⌋ else ⌊q⌋ + 1

/-- Python's `round(q, ndigits)` on exact rationals. -/
def pyRound (ndigits : ℕ) (q : ℚ) : ℚ := (rhe (q * 10 ^ ndigits) : ℚ) / 10 ^ ndigits

/-- A calendar date as the risk managers consume it: `date.today()` compared
for equality is abstracted to a day index, `date.today().isocalendar()[1]` to
the ISO week number. -/
structure CalDate where
  day : ℤ
  week : ℤ
deriving DecidableEq, Repr

/-- Mutable state of `RiskManager` / `HighProbRiskManager` (both classes hold
the same four fields and identical reset/record logic). -/
structure RMState where
  daily_loss : ℚ
  weekly_loss : ℚ
  last_reset_day : ℤ
  last_reset_week : ℤ
deriving DecidableEq, Repr

/-- Model of `RiskManager._reset_if_needed` (identical in `HighProbRiskManager`):
lazily zero the daily accumulator when the calendar day changed and the weekly
accumulator when the ISO week number changed, remembering the new day/week. -/
def reset_if_needed (today : CalDate) (s : RMState) : RMState :=
  let s1 := if today.day ≠ s.last_reset_day then
      { s with daily_loss := 0, last_reset_day := today.day } else s
  if today.week ≠ s1.last_reset_week then
      { s1 with weekly_loss := 0, last_reset_week := today.week } else s1

/-- Model of `RiskManager.record_loss` (identical in `HighProbRiskManager`): lazy
rollover check, then add a strictly positive amount to both accumulators. -/
def record_loss (today : CalDate) (amount : ℚ) (s : RMState) : RMState :=
  let s := reset_if_needed today s
  if amount > 0 then
    { s with daily_loss := s.daily_loss + amount, weekly_loss := s.weekly_loss + amount }
  else s

/-- Model of `CopyBotConfig` (config.py).  Field `COPY_FRACTION` stands for the source
field `COPY_RATIO`. -/
structure CopyBotConfig where
  TOTAL_CAPITAL_USDC : ℚ
  CAPITAL_ALLOCATION_PCT : ℚ
  MAX_TRADE_SIZE_USDC : ℚ
  MIN_TRADE_SIZE_USDC : ℚ
  MAX_RISK_PER_TRADE_PCT : ℚ
  STOP_LOSS_PCT : ℚ
  DAILY_LOSS_LIMIT_USDC : ℚ
  WEEKLY_LOSS_LIMIT_USDC : ℚ
  MAX_OPEN_POSITIONS : ℕ
  PROPORTIONAL_SIZING : Bool
  COPY_FRACTION : ℚ
  EMERGENCY_STOP : Bool
deriving DecidableEq, Repr

/-- The dataclass defaults of `CopyBotConfig` in config.py. -/
def copyDefaultCfg : CopyBotConfig :=
  { TOTAL_CAPITAL_USDC := 1000
    CAPITAL_ALLOCATION_PCT := 50
    MAX_TRADE_SIZE_USDC := 200
    MIN_TRADE_SIZE_USDC := 5
    MAX_RISK_PER_TRADE_PCT := 5
    STOP_LOSS_PCT := 20
    DAILY_LOSS_LIMIT_USDC := 100
    WEEKLY_LOSS_LIMIT_USDC := 300
    MAX_OPEN_POSITIONS := 10
    PROPORTIONAL_SIZING := true
    COPY_FRACTION := 1/10
    EMERGENCY_STOP := false }

/-- Model of `HighProbBotConfig` (config.py), the fields the engine logic reads. -/
structure HighProbBotConfig where
  ENTRY_THRESHOLD_MIN : ℚ
  ENTRY_THRESHOLD_MAX : ℚ
  DEFAULT_POSITION_SIZE_USDC : ℚ
  MAX_POSITION_SIZE_USDC : ℚ
  STOP_LOSS_PCT : ℚ
  TAKE_PROFIT_PCT : ℚ
  DAILY_LOSS_LIMIT_USDC : ℚ
  WEEKLY_LOSS_LIMIT_USDC : ℚ
  MAX_OPEN_POSITIONS : ℕ
  MEAN_REVERSION_MODE : Bool
  EMERGENCY_STOP : Bool
deriving DecidableEq, Repr

/-- The dataclass defaults of `HighProbBotConfig` in config.py. -/
def hpDefaultCfg : HighProbBotConfig :=
  { ENTRY_THRESHOLD_MIN := 88/100
    ENTRY_THRESHOLD_MAX := 91/100
    DEFAULT_POSITION_SIZE_USDC := 50
    MAX_POSITION_SIZE_USDC := 200
    STOP_LOSS_PCT := 15
    TAKE_PROFIT_PCT := 5
    DAILY_LOSS_LIMIT_USDC := 150
    WEEKLY_LOSS_LIMIT_USDC := 400
    MAX_OPEN_POSITIONS := 5
    MEAN_REVERSION_MODE := true
    EMERGENCY_STOP := false }

/-- Structured stand-in for the reason string a gate check returns; each
constructor carries the data the source interpolates into the f-string. -/
inductive GateReason where
  | emergency_stop_active
  | daily_limit_hit (loss : ℚ)
  | weekly_limit_hit (loss : ℚ)
  | max_positions_reached (open_positions : ℕ)
  | trade_too_small (proposed : ℚ)
  | ok
deriving DecidableEq, Repr

/-- Model of `RiskManager.can_trade` (copy bot): lazy reset, then the five
short-circuited checks, returning the mutated risk state with the verdict. -/
def can_trade (cfg : CopyBotConfig) (today : CalDate) (s : RMState)
    (proposed_size : ℚ) (open_positions : ℕ) : RMState × Bool × GateReason :=
  let s := reset_if_needed today s
  if cfg.EMERGENCY_STOP then (s, false, .emergency_stop_active)
  else if s.daily_loss ≥ cfg.DAILY_LOSS_LIMIT_USDC then (s, false, .daily_limit_hit s.daily_loss)
  else if s.weekly_loss ≥ cfg.WEEKLY_LOSS_LIMIT_USDC then (s, false, .weekly_limit_hit s.weekly_loss)
  else if open_positions ≥ cfg.MAX_OPEN_POSITIONS then (s, false, .max_positions_reached open_positions)
  else if proposed_size < cfg.MIN_TRADE_SIZE_USDC then (s, false, .trade_too_small proposed_size)
  else (s, true, .ok)

/-- Model of `HighProbRiskManager.can_enter`: as `can_trade` but without the
minimum-trade-size check. -/
def can_enter (cfg : HighProbBotConfig) (today : CalDate) (s : RMState)
    (open_positions : ℕ) : RMState × Bool × GateReason :=
  let s := reset_if_needed today s
  if cfg.EMERGENCY_STOP then (s, false, .emergency_stop_active)
  else if s.daily_loss ≥ cfg.DAILY_LOSS_LIMIT_USDC then (s, false, .daily_limit_hit s.daily_loss)
  else if s.weekly_loss ≥ cfg.WEEKLY_LOSS_LIMIT_USDC then (s, false, .weekly_limit_hit s.weekly_loss)
  else if open_positions ≥ cfg.MAX_OPEN_POSITIONS then (s, false, .max_positions_reached open_positions)
  else (s, true, .ok)

/-- Model of `RiskManager.calculate_size`: proportional or allocation base, clamped by
the three caps, rounded to two decimals. -/
def calculate_size (cfg : CopyBotConfig) (target_size available_capital : ℚ) : ℚ :=
  let size := if cfg.PROPORTIONAL_SIZING then target_size * cfg.COPY_FRACTION
    else available_capital * cfg.CAPITAL_ALLOCATION_PCT / 100
  let size := min size cfg.MAX_TRADE_SIZE_USDC
  let size := min size (available_capital * cfg.MAX_RISK_PER_TRADE_PCT / 100)
  let size := min size available_capital
  pyRound 2 size

/-- Association-list model of a Python `dict` keyed by token id: assignment
`d[k] = v` updates the value in place when the key exists (insertion order
kept) and appends otherwise. -/
def insertA {α : Type} (k : String) (v : α) (l : List (String × α)) : List (String × α) :=
  if l.any (fun p => p.1 = k) then l.map (fun p => if p.1 = k then (k, v) else p)
  else l ++ [(k, v)]

/-- Python `d[k]` / `k in d`: the value stored under `k`, if any. -/
def lookupA {α : Type} (k : String) : List (String × α) → Option α
  | [] => none
  | (k', v) :: rest => if k' = k then some v else lookupA k rest

/-- Python `del d[k]` (also used for `d.pop(k, None)`). -/
def eraseA {α : Type} (k : String) (l : List (String × α)) : List (String × α) :=
  l.filter (fun p => p.1 ≠ k)

/-- Python `s.add(x)` on a set modelled as a duplicate-free list. -/
def addSet (x : String) (l : List String) : List String :=
  if x ∈ l then l else l ++ [x]

/-- Python `s.discard(x)`. -/
def discardSet (x : String) (l : List String) : List String :=
  l.filter (fun y => y ≠ x)

/-- Model of `Position` dataclass of the copy bot (timestamps and the question string
dropped; they never feed back into control flow). -/
structure CopyPosition where
  market_id : String
  token_id : String
  side : String
  entry_price : ℚ
  size_usdc : ℚ
  current_price : ℚ
  pnl_usdc : ℚ
  stop_loss_price : ℚ
  order_id : String
deriving DecidableEq, Repr

/-- Copy-bot counters from `self.stats`. -/
structure CopyStats where
  trades_copied : ℕ
  trades_skipped : ℕ
  total_pnl : ℚ
  stop_losses_triggered : ℕ
deriving DecidableEq, Repr

/-- State of `CopyTradingBot` that the modelled operations touch. -/
structure CopyBotState where
  cfg : CopyBotConfig
  risk : RMState
  running : Bool
  open_positions : List (String × CopyPosition)
  stats : CopyStats
deriving DecidableEq, Repr

/-- Outcome tag of one copy-trade execution (`record.action` / failure
reason of `_execute_copy_trade`). -/
inductive CopyAction where
  | COPY_BUY
  | ORDER_FAILED
deriving DecidableEq, Repr

/-- The `Position` built by `_execute_copy_trade` on success: stop-loss a
fixed percentage against the entry side, order id from the external result
or the literal "paper". -/
def copyEntryPos (cfg : CopyBotConfig) (token_id side : String)
    (price size_usdc : ℚ) (result : Option String) : CopyPosition :=
  { market_id := token_id, token_id := token_id, side := side,
    entry_price := price, size_usdc := size_usdc, current_price := price,
    pnl_usdc := 0,
    stop_loss_price := if side = "BUY" then price * (1 - cfg.STOP_LOSS_PCT / 100)
      else price * (1 + cfg.STOP_LOSS_PCT / 100),
    order_id := result.getD "paper" }

/-- Model of `CopyTradingBot._execute_copy_trade`: when connected, the external order
result decides success; when disconnected, success is assumed (paper
trading) and the order reference is the literal "paper".  On success the
position is written into the dict under its token id (overwriting any
position already stored there). -/
def execute_copy_trade (token_id side : String) (price size_usdc : ℚ)
    (connected : Bool) (order_result : Option String) (s : CopyBotState) :
    CopyBotState × CopyAction :=
  let result : Option String := if connected then order_result else none
  let success : Bool := result.isSome || !connected
  if success then
    let pos : CopyPosition := copyEntryPos s.cfg token_id side price size_usdc result
    ({ s with open_positions := insertA token_id pos s.open_positions,
              stats := { s.stats with trades_copied := s.stats.trades_copied + 1 } },
     .COPY_BUY)
  else
    (s, .ORDER_FAILED)

/-- Model of `HighProbPosition` dataclass (timestamps and question dropped). -/
structure HighProbPosition where
  market_id : String
  token_id : String
  side : String
  trigger_price : ℚ
  entry_price : ℚ
  size_usdc : ℚ
  current_price : ℚ
  stop_loss_price : ℚ
  take_profit_price : ℚ
  order_id : String
deriving DecidableEq, Repr

/-- Model of `HighProbPosition.pnl_usdc` property. -/
def hpPnl (p : HighProbPosition) : ℚ :=
  if p.entry_price ≤ 0 then 0
  else (p.current_price - p.entry_price) * (p.size_usdc / p.entry_price)

/-- High-prob bot counters from `self.stats`. -/
structure HPStats where
  entries : ℕ
  skipped : ℕ
  exits : ℕ
  total_pnl : ℚ
  stop_losses : ℕ
  take_profits : ℕ
deriving DecidableEq, Repr

/-- Model of `ScanRecord.action` vocabulary (the values the modelled paths produce). -/
inductive HPAction where
  | ENTERED
  | RISK_BLOCKED
  | FAILED
  | EXIT
deriving DecidableEq, Repr

/-- A `ScanRecord` audit entry (timestamp/question/free-text reason dropped;
the gate reason is kept structurally). -/
structure ScanRecord where
  token_id : String
  detected_price : ℚ
  action : HPAction
  side : String
  size_usdc : ℚ
  gate_reason : GateReason
deriving DecidableEq, Repr

/-- State of `HighProbBot` that the modelled operations touch.
`COOLDOWN_MINUTES` is the constant 5 set in `__init__`; timestamps are
rationals in minutes. -/
structure HPBotState where
  cfg : HighProbBotConfig
  risk : RMState
  running : Bool
  open_positions : List (String × HighProbPosition)
  already_entered : List String
  cooldown_until : List (String × ℚ)
  stats : HPStats
  scan_log : List ScanRecord
deriving DecidableEq, Repr

/-- Model of `HighProbBot.COOLDOWN_MINUTES` (set in `__init__`). -/
def COOLDOWN_MINUTES : ℚ := 5

/-- Model of `HighProbBot._get_opposite_token`: first non-empty token id of the
market's `clobTokenIds` list different from the given one. -/
def get_opposite_token (clob_token_ids : List String) (token_id : String) : Option String :=
  clob_token_ids.find? (fun tid => tid ≠ "" && tid ≠ token_id)

/-- The `HighProbPosition` built by `_execute_entry` on success: stop-loss a
fixed percentage below entry, take-profit a fixed percentage above capped at
0.99, order id from the external result or the literal "paper". -/
def hpEntryPos (cfg : HighProbBotConfig) (market_id token_id outcome : String)
    (price size detected_price : ℚ) (result : Option String) : HighProbPosition :=
  { market_id := market_id, token_id := token_id, side := outcome,
    trigger_price := detected_price, entry_price := price,
    size_usdc := size, current_price := price,
    stop_loss_price := price * (1 - cfg.STOP_LOSS_PCT / 100),
    take_profit_price := min (price * (1 + cfg.TAKE_PROFIT_PCT / 100)) (99/100),
    order_id := result.getD "paper" }

/-- Model of `HighProbBot._execute_entry`: order submission is external (marketable or
resting depending on `ORDER_TYPE`; its outcome is the opaque `order_result`).
Disconnected ⇒ paper mode ⇒ unconditional success with order id "paper".
Success opens/overwrites the position, bumps `entries`, locks the token in
`already_entered` and clears its cooldown; failure sets a 5-minute cooldown. -/
def execute_entry (market_id token_id outcome : String) (price size : ℚ)
    (detected_price : ℚ) (connected : Bool) (order_result : Option String)
    (now : ℚ) (s : HPBotState) : HPBotState × HPAction :=
  let in_paper_mode : Bool := !connected
  let result : Option String := if connected then order_result else none
  let success : Bool := result.isSome || in_paper_mode
  if success then
    let pos : HighProbPosition := hpEntryPos s.cfg market_id token_id outcome price size detected_price result
    ({ s with open_positions := insertA token_id pos s.open_positions,
              stats := { s.stats with entries := s.stats.entries + 1 },
              already_entered := addSet token_id s.already_entered,
              cooldown_until := eraseA token_id s.cooldown_until },
     .ENTERED)
  else
    ({ s with cooldown_until := insertA token_id (now + COOLDOWN_MINUTES) s.cooldown_until },
     .FAILED)

/-- The cooldown guard of `_handle_signal`:
`token_id in self._cooldown_until and now < self._cooldown_until[token_id]`. -/
def cooldownActive (now : ℚ) (token_id : String) (cooldown_until : List (String × ℚ)) : Bool :=
  match lookupA token_id cooldown_until with
  | some t => now < t
  | none => false

/-- Model of `HighProbBot._handle_signal`: gate via `can_enter` (which mutates the risk
state), pick the traded side (complement in mean-reversion mode, with price
`round(1 - trigger, 4)`), drop the signal when the triggering token has an
open position or an unexpired cooldown, otherwise size the entry and execute,
appending one scan record. -/
def handle_signal (today : CalDate) (now : ℚ) (clob_token_ids : List String)
    (market_id token_id outcome : String) (trigger_price : ℚ)
    (connected : Bool) (order_result : Option String) (s : HPBotState) : HPBotState :=
  let gr := can_enter s.cfg today s.risk s.open_positions.length
  let s := { s with risk := gr.1 }
  let allowed := gr.2.1
  let reason := gr.2.2
  let trade_outcome := if s.cfg.MEAN_REVERSION_MODE then
      (if outcome = "YES" then "NO" else "YES") else outcome
  let trade_token := if s.cfg.MEAN_REVERSION_MODE then
      get_opposite_token clob_token_ids token_id else some token_id
  let trade_price := if s.cfg.MEAN_REVERSION_MODE then
      pyRound 4 (1 - trigger_price) else trigger_price
  if token_id ∈ s.already_entered then s
  else if cooldownActive now token_id s.cooldown_until then s
  else
    let size := min s.cfg.DEFAULT_POSITION_SIZE_USDC s.cfg.MAX_POSITION_SIZE_USDC
    let record : ScanRecord :=
      { token_id := trade_token.getD token_id, detected_price := trigger_price,
        action := if allowed then .ENTERED else .RISK_BLOCKED,
        side := trade_outcome, size_usdc := if allowed then size else 0,
        gate_reason := reason }
    match allowed, trade_token with
    | true, some tt =>
        let r := execute_entry market_id tt trade_outcome trade_price size
          trigger_price connected order_result now s
        { r.1 with scan_log := r.1.scan_log ++ [{ record with action := r.2 }] }
    | true, none =>
        { s with scan_log := s.scan_log ++ [record] }
    | false, _ =>
        { s with stats := { s.stats with skipped := s.stats.skipped + 1 },
                 scan_log := s.scan_log ++ [record] }

/-- Model of `HighProbBot._update_positions`: refresh each open position's current
price from the external midpoint lookup, keeping the old price when the
lookup returns nothing. -/
def update_positions (price_of : String → Option ℚ) (s : HPBotState) : HPBotState :=
  { s with open_positions := s.open_positions.map (fun p =>
      match price_of p.1 with
      | some q => (p.1, { p.2 with current_price := q })
      | none => p) }

/-- Exit kind per position: stop-loss checked first, take-profit in the
`elif`; at most one fires. -/
inductive ExitKind where
  | stop_loss
  | take_profit
deriving DecidableEq, Repr

/-- The exit condition of `_check_exits` for one position. -/
def exitKindOf (p : HighProbPosition) : Option ExitKind :=
  if p.current_price ≤ p.stop_loss_price then some .stop_loss
  else if p.current_price ≥ p.take_profit_price then some .take_profit
  else none

/-- The `ScanRecord` an exit appends (action "EXIT", side "SELL"). -/
def exitRecord (item : String × HighProbPosition) : ScanRecord :=
  { token_id := item.1, detected_price := item.2.current_price, action := .EXIT, side := "SELL", size_usdc := item.2.size_usdc, gate_reason := .ok }

/-- The body of `_check_exits` for one snapshot item. -/
def check_exits_step (today : CalDate) (s : HPBotState) (item : String × HighProbPosition) :
    HPBotState :=
  match exitKindOf item.2 with
  | some .stop_loss =>
      let s := { s with
        stats := { s.stats with stop_losses := s.stats.stop_losses + 1 }
        risk := record_loss today |hpPnl item.2| s.risk }
      { s with
        stats := { s.stats with exits := s.stats.exits + 1, total_pnl := s.stats.total_pnl + hpPnl item.2 }
        scan_log := s.scan_log ++ [exitRecord item]
        open_positions := eraseA item.1 s.open_positions
        already_entered := discardSet item.1 s.already_entered
        cooldown_until := eraseA item.1 s.cooldown_until }
  | some .take_profit =>
      let s := { s with stats := { s.stats with take_profits := s.stats.take_profits + 1 } }
      { s with
        stats := { s.stats with exits := s.stats.exits + 1, total_pnl := s.stats.total_pnl + hpPnl item.2 }
        scan_log := s.scan_log ++ [exitRecord item]
        open_positions := eraseA item.1 s.open_positions
        already_entered := discardSet item.1 s.already_entered
        cooldown_until := eraseA item.1 s.cooldown_until }
  | none => s

/-- Model of `HighProbBot._check_exits`: iterate over a snapshot of the open positions
(`list(self.open_positions.items())`), firing at most one exit per position;
a stop-loss exit credits the absolute realized P&L to the risk ledger; every
exit removes the position and clears the dedup and cooldown entries. -/
def check_exits (today : CalDate) (s : HPBotState) : HPBotState :=
  s.open_positions.foldl (check_exits_step today) s

/-- Observable operations on a `HighProbBot` instance.  Reconfiguration is
not an event: the dashboard layer rebuilds a fresh bot instance from a new
config (`_rebuild_bots` in app.py), it never mutates a live one, and no
engine operation writes `EMERGENCY_STOP` except `emergency_stop` itself. -/
inductive HPEvent where
  | start
  | stop
  | emergency
  | signal (today : CalDate) (now : ℚ) (clob_token_ids : List String)
      (market_id token_id outcome : String) (trigger_price : ℚ)
      (connected : Bool) (order_result : Option String)
  | refresh (price_of : String → Option ℚ)
  | exits (today : CalDate)
  | loss (today : CalDate) (amount : ℚ)

/-- One engine operation of the high-probability bot: `start` / `stop` /
`emergency_stop` lifecycle calls, and the three phases of `_run_loop`
(`_scan_markets` signals, `_update_positions`, `_check_exits`), plus a direct
`record_loss`. -/
def hpStep (s : HPBotState) (e : HPEvent) : HPBotState :=
  match e with
  | .start => if s.running then s else { s with running := true }
  | .stop => { s with running := false }
  | .emergency => { s with cfg := { s.cfg with EMERGENCY_STOP := true }, running := false }
  | .signal today now ids mid tid outcome p conn res =>
      handle_signal today now ids mid tid outcome p conn res s
  | .refresh f => update_positions f s
  | .exits today => check_exits today s
  | .loss today a => { s with risk := record_loss today a s.risk }

/-- A run of the bot: a sequence of operations applied in order. -/
def hpRun (s : HPBotState) (es : List HPEvent) : HPBotState := es.foldl hpStep s

/-- The instrument ids currently holding an open position. -/
def keysOf {α : Type} (l : List (String × α)) : List String := l.map Prod.fst

/-- A concrete open position used to exercise the duplicate-open path. -/
def dupPos : CopyPosition :=
  { market_id := "tok", token_id := "tok", side := "BUY", entry_price := 1/2,
    size_usdc := 20, current_price := 1/2, pnl_usdc := 0, stop_loss_price := 2/5,
    order_id := "paper" }

/-- A copy-bot state that already holds an open position on token "tok". -/
def dupState : CopyBotState :=
  { cfg := copyDefaultCfg
    risk := { daily_loss := 0, weekly_loss := 0, last_reset_day := 0, last_reset_week := 1 }
    running := true
    open_positions := [("tok", dupPos)]
    stats := { trades_copied := 1, trades_skipped := 0, total_pnl := 0, stop_losses_triggered := 0 } }

/-- The scenario position of C6: entry 0.50 with a 20% stop-loss, so the
stop-loss price is 0.40; the current price has been refreshed to 0.40. -/
def c6pos : HighProbPosition :=
  { market_id := "m", token_id := "t6", side := "NO", trigger_price := 9/10,
    entry_price := 1/2, size_usdc := 50, current_price := 2/5,
    stop_loss_price := 2/5, take_profit_price := 21/40, order_id := "paper" }

/-- Bot state holding exactly the C6 scenario position. -/
def c6state : HPBotState :=
  { cfg := { hpDefaultCfg with STOP_LOSS_PCT := 20 }
    risk := { daily_loss := 0, weekly_loss := 0, last_reset_day := 0, last_reset_week := 1 }
    running := true
    open_positions := [("t6", c6pos)]
    already_entered := ["t6"]
    cooldown_until := []
    stats := { entries := 1, skipped := 0, exits := 0, total_pnl := 0, stop_losses := 0, take_profits := 0 }
    scan_log := [] }

/-- Bot state with a cooldown on token "t5" expiring at time 10. -/
def c5state : HPBotState :=
  { cfg := hpDefaultCfg
    risk := { daily_loss := 0, weekly_loss := 0, last_reset_day := 0, last_reset_week := 1 }
    running := true
    open_positions := []
    already_entered := []
    cooldown_until := [("t5", 10)]
    stats := { entries := 0, skipped := 0, exits := 0, total_pnl := 0, stop_losses := 0, take_profits := 0 }
    scan_log := [] }

/-- The entry condition of `_check_market`:
`ENTRY_THRESHOLD_MIN <= price <= ENTRY_THRESHOLD_MAX` (inclusive band). -/
def entry_band_ok (cfg : HighProbBotConfig) (price : ℚ) : Prop :=
  cfg.ENTRY_THRESHOLD_MIN ≤ price ∧ price ≤ cfg.ENTRY_THRESHOLD_MAX

/-! ### Helper lemmas -/

theorem rhe_le_half (q : ℚ) : (rhe q : ℚ) ≤ q + 1/2 := by
  have hf : (⌊q⌋ : ℚ) ≤ q := Int.floor_le q
  unfold rhe
  split_ifs with h1 h2 h3
  · linarith
  · have := le_of_not_lt h1
    push_cast
    linarith
  · have := le_of_not_lt h1
    linarith
  · have := le_of_not_lt h1
    push_cast
    linarith

theorem rhe_nonneg (q : ℚ) (h : 0 ≤ q) : 0 ≤ rhe q := by
  have hf : (0 : ℤ) ≤ ⌊q⌋ := Int.floor_nonneg.mpr h
  unfold rhe
  split_ifs <;> omega

theorem pyRound_two_le (q : ℚ) : pyRound 2 q ≤ q + 1/200 := by
  have h := rhe_le_half (q * 10 ^ 2)
  unfold pyRound
  norm_num at h ⊢
  linarith

theorem pyRound_nonneg (n : ℕ) (q : ℚ) (h : 0 ≤ q) : 0 ≤ pyRound n q := by
  have h1 : (0 : ℚ) ≤ q * 10 ^ n := by positivity
  have h2 := rhe_nonneg _ h1
  unfold pyRound
  positivity

/-! ### C1 — sizing -/

/-- C1 fails as stated: with the default copy-bot config, a negative mirrored
trade size yields a negative result (−10), and with available capital 0.12
the clamped value 0.006 is rounded up to 0.01, which exceeds both the
available-capital × max-risk-per-trade cap and stays the returned value; so
the result can be negative and can exceed a cap. -/
theorem C1_counterexample :
    calculate_size copyDefaultCfg (-100) 1000 < 0
    ∧ (12/100 : ℚ) * copyDefaultCfg.MAX_RISK_PER_TRADE_PCT / 100
        < calculate_size copyDefaultCfg 100 (12/100) := by
  constructor
  · show pyRound 2 (min (min (min ((-100) * (1/10)) 200) (1000 * 5 / 100)) 1000) < 0
    norm_num [pyRound, rhe]
  · show (12/100 : ℚ) * 5 / 100
        < pyRound 2 (min (min (min (100 * (1/10)) 200) ((12/100) * 5 / 100)) (12/100))
    norm_num [pyRound, rhe, min_def]

/-- C1 (amended): `calculate_size` rounds the clamped base to two decimals —
`min(base, maxTradeSize, capital × maxRiskPct/100, capital)` with base
`targetSize × copyRatio` in proportional mode and
`capital × allocationPct/100` otherwise; for nonnegative inputs and
nonnegative configured ratio/allocation/caps the result is nonnegative, and
it exceeds each of the three caps by at most the rounding slack 1/200
(the pre-rounding clamped value itself never exceeds them). -/
theorem C1_calculate_size_spec (cfg : CopyBotConfig) (t a : ℚ)
    (ht : 0 ≤ t) (ha : 0 ≤ a) (hr : 0 ≤ cfg.COPY_FRACTION)
    (hal : 0 ≤ cfg.CAPITAL_ALLOCATION_PCT) (hmt : 0 ≤ cfg.MAX_TRADE_SIZE_USDC)
    (hmr : 0 ≤ cfg.MAX_RISK_PER_TRADE_PCT) :
    0 ≤ calculate_size cfg t a
    ∧ calculate_size cfg t a ≤ cfg.MAX_TRADE_SIZE_USDC + 1/200
    ∧ calculate_size cfg t a ≤ a * cfg.MAX_RISK_PER_TRADE_PCT / 100 + 1/200
    ∧ calculate_size cfg t a ≤ a + 1/200
    ∧ (cfg.PROPORTIONAL_SIZING = true →
        calculate_size cfg t a
          = pyRound 2 (min (min (min (t * cfg.COPY_FRACTION) cfg.MAX_TRADE_SIZE_USDC)
              (a * cfg.MAX_RISK_PER_TRADE_PCT / 100)) a))
    ∧ (cfg.PROPORTIONAL_SIZING = false →
        calculate_size cfg t a
          = pyRound 2 (min (min (min (a * cfg.CAPITAL_ALLOCATION_PCT / 100) cfg.MAX_TRADE_SIZE_USDC)
              (a * cfg.MAX_RISK_PER_TRADE_PCT / 100)) a)) := by
  set base := if cfg.PROPORTIONAL_SIZING then t * cfg.COPY_FRACTION
    else a * cfg.CAPITAL_ALLOCATION_PCT / 100 with hbase
  have hsz : calculate_size cfg t a
      = pyRound 2 (min (min (min base cfg.MAX_TRADE_SIZE_USDC)
          (a * cfg.MAX_RISK_PER_TRADE_PCT / 100)) a) := rfl
  have hb0 : 0 ≤ base := by
    rw [hbase]
    split_ifs
    · positivity
    · positivity
  have hclamp0 : 0 ≤ min (min (min base cfg.MAX_TRADE_SIZE_USDC)
      (a * cfg.MAX_RISK_PER_TRADE_PCT / 100)) a := by
    simp only [le_min_iff]
    refine ⟨⟨⟨hb0, hmt⟩, ?_⟩, ha⟩
    positivity
  refine ⟨?_, ?_, ?_, ?_, ?_, ?_⟩
  · rw [hsz]
    exact pyRound_nonneg 2 _ hclamp0
  · rw [hsz]
    refine le_trans (pyRound_two_le _) ?_
    have : min (min (min base cfg.MAX_TRADE_SIZE_USDC)
        (a * cfg.MAX_RISK_PER_TRADE_PCT / 100)) a ≤ cfg.MAX_TRADE_SIZE_USDC := by
      refine le_trans (min_le_left _ _) (le_trans (min_le_left _ _) (min_le_right _ _))
    linarith
  · rw [hsz]
    refine le_trans (pyRound_two_le _) ?_
    have : min (min (min base cfg.MAX_TRADE_SIZE_USDC)
        (a * cfg.MAX_RISK_PER_TRADE_PCT / 100)) a
        ≤ a * cfg.MAX_RISK_PER_TRADE_PCT / 100 :=
      le_trans (min_le_left _ _) (min_le_right _ _)
    linarith
  · rw [hsz]
    refine le_trans (pyRound_two_le _) ?_
    have : min (min (min base cfg.MAX_TRADE_SIZE_USDC)
        (a * cfg.MAX_RISK_PER_TRADE_PCT / 100)) a ≤ a := min_le_right _ _
    linarith
  · intro hp
    rw [hsz, hbase, hp]
    simp
  · intro hp
    rw [hsz, hbase, hp]
    simp

/-- Witness for C1's amended theorem at the default config, target 100,
capital 1000: result 10 is nonnegative and within all caps. -/
theorem C1_witness :
    0 ≤ calculate_size copyDefaultCfg 100 1000
    ∧ calculate_size copyDefaultCfg 100 1000 ≤ 1000 + 1/200 :=
  ⟨(C1_calculate_size_spec copyDefaultCfg 100 1000 (by norm_num) (by norm_num)
      (by norm_num [copyDefaultCfg]) (by norm_num [copyDefaultCfg])
      (by norm_num [copyDefaultCfg]) (by norm_num [copyDefaultCfg])).1,
   (C1_calculate_size_spec copyDefaultCfg 100 1000 (by norm_num) (by norm_num)
      (by norm_num [copyDefaultCfg]) (by norm_num [copyDefaultCfg])
      (by norm_num [copyDefaultCfg]) (by norm_num [copyDefaultCfg])).2.2.2.1⟩

/-! ### C2 — gate ordering and short-circuiting -/

/-- C2: both gate checks evaluate their conditions in the fixed order
emergency-stop, daily limit, weekly limit, max-open-positions, then (copy
strategy only) minimum trade size; the first violated condition alone decides
the verdict and its message, and when none is violated the result is
(true, empty reason).  The daily/weekly losses compared and reported are the
ones after the lazy rollover. -/
theorem C2_gate_order (ccfg : CopyBotConfig) (hcfg : HighProbBotConfig)
    (today : CalDate) (s : RMState) (size : ℚ) (n : ℕ) :
    (ccfg.EMERGENCY_STOP = true →
      can_trade ccfg today s size n = (reset_if_needed today s, false, .emergency_stop_active))
    ∧ (ccfg.EMERGENCY_STOP = false →
        (reset_if_needed today s).daily_loss ≥ ccfg.DAILY_LOSS_LIMIT_USDC →
      can_trade ccfg today s size n
        = (reset_if_needed today s, false, .daily_limit_hit (reset_if_needed today s).daily_loss))
    ∧ (ccfg.EMERGENCY_STOP = false →
        (reset_if_needed today s).daily_loss < ccfg.DAILY_LOSS_LIMIT_USDC →
        (reset_if_needed today s).weekly_loss ≥ ccfg.WEEKLY_LOSS_LIMIT_USDC →
      can_trade ccfg today s size n
        = (reset_if_needed today s, false, .weekly_limit_hit (reset_if_needed today s).weekly_loss))
    ∧ (ccfg.EMERGENCY_STOP = false →
        (reset_if_needed today s).daily_loss < ccfg.DAILY_LOSS_LIMIT_USDC →
        (reset_if_needed today s).weekly_loss < ccfg.WEEKLY_LOSS_LIMIT_USDC →
        n ≥ ccfg.MAX_OPEN_POSITIONS →
      can_trade ccfg today s size n
        = (reset_if_needed today s, false, .max_positions_reached n))
    ∧ (ccfg.EMERGENCY_STOP = false →
        (reset_if_needed today s).daily_loss < ccfg.DAILY_LOSS_LIMIT_USDC →
        (reset_if_needed today s).weekly_loss < ccfg.WEEKLY_LOSS_LIMIT_USDC →
        n < ccfg.MAX_OPEN_POSITIONS → size < ccfg.MIN_TRADE_SIZE_USDC →
      can_trade ccfg today s size n
        = (reset_if_needed today s, false, .trade_too_small size))
    ∧ (ccfg.EMERGENCY_STOP = false →
        (reset_if_needed today s).daily_loss < ccfg.DAILY_LOSS_LIMIT_USDC →
        (reset_if_needed today s).weekly_loss < ccfg.WEEKLY_LOSS_LIMIT_USDC →
        n < ccfg.MAX_OPEN_POSITIONS → size ≥ ccfg.MIN_TRADE_SIZE_USDC →
      can_trade ccfg today s size n = (reset_if_needed today s, true, .ok))
    ∧ (hcfg.EMERGENCY_STOP = true →
      can_enter hcfg today s n = (reset_if_needed today s, false, .emergency_stop_active))
    ∧ (hcfg.EMERGENCY_STOP = false →
        (reset_if_needed today s).daily_loss ≥ hcfg.DAILY_LOSS_LIMIT_USDC →
      can_enter hcfg today s n
        = (reset_if_needed today s, false, .daily_limit_hit (reset_if_needed today s).daily_loss))
    ∧ (hcfg.EMERGENCY_STOP = false →
        (reset_if_needed today s).daily_loss < hcfg.DAILY_LOSS_LIMIT_USDC →
        (reset_if_needed today s).weekly_loss ≥ hcfg.WEEKLY_LOSS_LIMIT_USDC →
      can_enter hcfg today s n
        = (reset_if_needed today s, false, .weekly_limit_hit (reset_if_needed today s).weekly_loss))
    ∧ (hcfg.EMERGENCY_STOP = false →
        (reset_if_needed today s).daily_loss < hcfg.DAILY_LOSS_LIMIT_USDC →
        (reset_if_needed today s).weekly_loss < hcfg.WEEKLY_LOSS_LIMIT_USDC →
        n ≥ hcfg.MAX_OPEN_POSITIONS →
      can_enter hcfg today s n = (reset_if_needed today s, false, .max_positions_reached n))
    ∧ (hcfg.EMERGENCY_STOP = false →
        (reset_if_needed today s).daily_loss < hcfg.DAILY_LOSS_LIMIT_USDC →
        (reset_if_needed today s).weekly_loss < hcfg.WEEKLY_LOSS_LIMIT_USDC →
        n < hcfg.MAX_OPEN_POSITIONS →
      can_enter hcfg today s n = (reset_if_needed today s, true, .ok)) := by
  refine ⟨?_, ?_, ?_, ?_, ?_, ?_, ?_, ?_, ?_, ?_, ?_⟩ <;>
    (intros
     simp only [can_trade, can_enter]
     split_ifs <;> first | rfl | linarith | omega | simp_all)

/-! ### C7 — lazy period rollover -/

theorem reset_last_seen (today : CalDate) (s : RMState) :
    (reset_if_needed today s).last_reset_day = today.day
    ∧ (reset_if_needed today s).last_reset_week = today.week := by
  by_cases h1 : today.day = s.last_reset_day <;>
    by_cases h2 : today.week = s.last_reset_week <;>
      simp [reset_if_needed, h1, h2]

/-- C7: the rollover is detected lazily by comparing the current day / ISO
week to the last-seen one; a second check on the same date is a no-op
(so each boundary crossing resets exactly once, however many calls occur);
a day (week) change zeroes exactly the daily (weekly) accumulator; within an
unchanged day (week) the accumulator is kept, never reset retroactively, and
`record_loss` adds exactly the positive part of the amount after the lazy
check. -/
theorem C7_lazy_reset (s : RMState) (today : CalDate) (a : ℚ) :
    reset_if_needed today (reset_if_needed today s) = reset_if_needed today s
    ∧ (today.day = s.last_reset_day ∧ today.week = s.last_reset_week →
        reset_if_needed today s = s)
    ∧ (today.day ≠ s.last_reset_day → (reset_if_needed today s).daily_loss = 0)
    ∧ (today.week ≠ s.last_reset_week → (reset_if_needed today s).weekly_loss = 0)
    ∧ (today.day = s.last_reset_day → (reset_if_needed today s).daily_loss = s.daily_loss)
    ∧ (today.week = s.last_reset_week → (reset_if_needed today s).weekly_loss = s.weekly_loss)
    ∧ (record_loss today a s).daily_loss
        = (reset_if_needed today s).daily_loss + (if a > 0 then a else 0)
    ∧ (record_loss today a s).weekly_loss
        = (reset_if_needed today s).weekly_loss + (if a > 0 then a else 0) := by
  refine ⟨?_, ?_, ?_, ?_, ?_, ?_, ?_, ?_⟩
  · have h := reset_last_seen today s
    set r := reset_if_needed today s with hr
    simp [reset_if_needed, h.1, h.2]
  · rintro ⟨h1, h2⟩
    simp [reset_if_needed, h1, h2]
  · intro h
    by_cases h2 : today.week = s.last_reset_week <;> simp [reset_if_needed, h, h2]
  · intro h
    by_cases h1 : today.day = s.last_reset_day <;> simp [reset_if_needed, h, h1]
  · intro h
    by_cases h2 : today.week = s.last_reset_week <;> simp [reset_if_needed, h, h2]
  · intro h
    by_cases h1 : today.day = s.last_reset_day <;> simp [reset_if_needed, h, h1]
  · simp only [record_loss]
    split_ifs with ha <;> simp
  · simp only [record_loss]
    split_ifs with ha <;> simp

/-- Witness for C7 at a concrete state and date: same-date check is a no-op
and a day change zeroes the daily accumulator. -/
theorem C7_witness :
    reset_if_needed ⟨3, 1⟩ { daily_loss := 7, weekly_loss := 9, last_reset_day := 3, last_reset_week := 1 }
      = { daily_loss := 7, weekly_loss := 9, last_reset_day := 3, last_reset_week := 1 }
    ∧ (reset_if_needed ⟨4, 1⟩ { daily_loss := 7, weekly_loss := 9, last_reset_day := 3, last_reset_week := 1 }).daily_loss = 0 :=
  ⟨(C7_lazy_reset { daily_loss := 7, weekly_loss := 9, last_reset_day := 3, last_reset_week := 1 } ⟨3, 1⟩ 0).2.1 ⟨rfl, rfl⟩,
   (C7_lazy_reset { daily_loss := 7, weekly_loss := 9, last_reset_day := 3, last_reset_week := 1 } ⟨4, 1⟩ 0).2.2.1 (by decide)⟩

/-! ### Association-list lemmas -/

theorem lookupA_append {α : Type} (k : String) (l l' : List (String × α)) :
    lookupA k (l ++ l') = (lookupA k l).or (lookupA k l') := by
  induction l with
  | nil => simp [lookupA]
  | cons p rest ih =>
      obtain ⟨k', v⟩ := p
      by_cases h : k' = k <;> simp [lookupA, h, ih]

theorem lookupA_eq_none {α : Type} (k : String) (l : List (String × α))
    (h : ∀ x ∈ l, x.1 ≠ k) : lookupA k l = none := by
  induction l with
  | nil => rfl
  | cons p rest ih =>
      obtain ⟨k', v⟩ := p
      have h1 : k' ≠ k := h (k', v) (by simp)
      simp only [lookupA, if_neg h1]
      exact ih (fun x hx => h x (by simp [hx]))

theorem lookupA_map_replace {α : Type} (k : String) (v : α) (l : List (String × α))
    (h : ∃ x ∈ l, x.1 = k) :
    lookupA k (l.map (fun p => if p.1 = k then (k, v) else p)) = some v := by
  induction l with
  | nil => simp at h
  | cons p rest ih =>
      obtain ⟨k1, v1⟩ := p
      by_cases hp : k1 = k
      · subst hp
        simp only [List.map_cons]
        simp [lookupA]
      · have h' : ∃ x ∈ rest, x.1 = k := by
          obtain ⟨x, hx, hxk⟩ := h
          rcases List.mem_cons.mp hx with rfl | hx'
          · exact absurd hxk hp
          · exact ⟨x, hx', hxk⟩
        simp only [List.map_cons]
        rw [show (if (k1, v1).1 = k then ((k, v) : String × α) else (k1, v1)) = (k1, v1) from if_neg hp]
        simp [lookupA, hp]
        exact ih h'

theorem lookupA_map_replace_ne {α : Type} (k k' : String) (v : α) (l : List (String × α))
    (h : k' ≠ k) :
    lookupA k' (l.map (fun p => if p.1 = k then (k, v) else p)) = lookupA k' l := by
  induction l with
  | nil => rfl
  | cons p rest ih =>
      obtain ⟨k1, v1⟩ := p
      by_cases hp : k1 = k
      · subst hp
        have hne : ¬(k1 = k') := fun he => h he.symm
        simp only [List.map_cons]
        simp [lookupA, hne]
        exact ih
      · simp only [List.map_cons]
        rw [show (if (k1, v1).1 = k then ((k, v) : String × α) else (k1, v1)) = (k1, v1) from if_neg hp]
        by_cases hk' : k1 = k'
        · simp [lookupA, hk']
        · simp [lookupA, hk']
          exact ih

theorem lookupA_insertA_self {α : Type} (k : String) (v : α) (l : List (String × α)) :
    lookupA k (insertA k v l) = some v := by
  unfold insertA
  split_ifs with hany
  · obtain ⟨x, hx, hxk⟩ := List.any_eq_true.mp hany
    exact lookupA_map_replace k v l ⟨x, hx, by simpa using hxk⟩
  · have hall : ∀ x ∈ l, x.1 ≠ k := by
      intro x hx hxk
      exact hany (List.any_eq_true.mpr ⟨x, hx, by simp [hxk]⟩)
    rw [lookupA_append, lookupA_eq_none k l hall]
    simp [lookupA]

theorem lookupA_insertA_ne {α : Type} (k k' : String) (v : α) (l : List (String × α))
    (h : k' ≠ k) : lookupA k' (insertA k v l) = lookupA k' l := by
  unfold insertA
  split_ifs with hany
  · exact lookupA_map_replace_ne k k' v l h
  · rw [lookupA_append]
    have hk : ¬(k = k') := fun he => h he.symm
    cases h' : lookupA k' l <;> simp [h', lookupA, hk]

theorem keysOf_insertA {α : Type} (k : String) (v : α) (l : List (String × α)) :
    keysOf (insertA k v l)
      = if l.any (fun p => p.1 = k) then keysOf l else keysOf l ++ [k] := by
  unfold insertA keysOf
  split_ifs with hany
  · simp only [List.map_map]
    apply List.map_congr_left
    intro p hp
    by_cases h : p.1 = k <;> simp [h]
  · simp

theorem insertA_nodup {α : Type} (k : String) (v : α) (l : List (String × α))
    (h : (keysOf l).Nodup) : (keysOf (insertA k v l)).Nodup := by
  rw [keysOf_insertA]
  split_ifs with hany
  · exact h
  · have hnm : k ∉ keysOf l := by
      intro hk
      obtain ⟨p, hp, hpk⟩ := List.mem_map.mp hk
      exact hany (List.any_eq_true.mpr ⟨p, hp, by simp [hpk]⟩)
    simp [List.nodup_append, h, hnm]

/-! ### C4 — duplicate opens -/

/-- C4 fails as stated: executing a second copy trade on a token that already
has an open position does not fail as a no-op — the dict assignment replaces
the stored position (entry price changes from 0.5 to 0.7). -/
theorem C4_counterexample :
    (lookupA "tok" (execute_copy_trade "tok" "BUY" (7/10) 10 false none dupState).1.open_positions).map
        CopyPosition.entry_price = some (7/10)
    ∧ (lookupA "tok" dupState.open_positions).map CopyPosition.entry_price = some (1/2)
    ∧ ((7 : ℚ)/10 ≠ 1/2) := by
  refine ⟨?_, ?_, by norm_num⟩
  · simp only [execute_copy_trade]
    simp [lookupA_insertA_self, copyEntryPos]
  · simp [dupState, dupPos, lookupA]

/-- C4 (amended): the store is a dict keyed by instrument id, so at most one
open position per id always holds (keys stay duplicate-free, each key occurs
at most once); but opening on an id that already has an open position
replaces the stored position with the newly built one (its entry price is the
new trade's price) instead of rejecting the duplicate; positions of other
instruments are untouched. -/
theorem C4_store_replaces (s : CopyBotState) (t side : String) (price size : ℚ)
    (connected : Bool) (res : Option String)
    (hnodup : (keysOf s.open_positions).Nodup)
    (hsucc : connected = false ∨ res.isSome = true) :
    (keysOf (execute_copy_trade t side price size connected res s).1.open_positions).Nodup
    ∧ (∀ k, (keysOf (execute_copy_trade t side price size connected res s).1.open_positions).count k ≤ 1)
    ∧ (lookupA t (execute_copy_trade t side price size connected res s).1.open_positions).map
        CopyPosition.entry_price = some price
    ∧ (∀ k, k ≠ t → lookupA k (execute_copy_trade t side price size connected res s).1.open_positions
        = lookupA k s.open_positions) := by
  have key : ∀ pos : CopyPosition, pos.entry_price = price →
      (keysOf (insertA t pos s.open_positions)).Nodup
      ∧ (∀ k, (keysOf (insertA t pos s.open_positions)).count k ≤ 1)
      ∧ (lookupA t (insertA t pos s.open_positions)).map CopyPosition.entry_price = some price
      ∧ (∀ k, k ≠ t → lookupA k (insertA t pos s.open_positions) = lookupA k s.open_positions) := by
    intro pos hep
    refine ⟨insertA_nodup t pos _ hnodup, ?_, ?_, ?_⟩
    · exact fun k => List.nodup_iff_count_le_one.mp (insertA_nodup t pos _ hnodup) k
    · rw [lookupA_insertA_self]
      simp [hep]
    · exact fun k hk => lookupA_insertA_ne t k pos _ hk
  cases connected with
  | false =>
      have h := key (copyEntryPos s.cfg t side price size none) rfl
      simpa [execute_copy_trade] using h
  | true =>
      rcases hsucc with hc | hr
      · exact absurd hc (by simp)
      · obtain ⟨oid, rfl⟩ := Option.isSome_iff_exists.mp hr
        have h := key (copyEntryPos s.cfg t side price size (some oid)) rfl
        simpa [execute_copy_trade] using h

/-- Witness for C4's amended theorem: after the duplicate open on "tok" the
store's keys are still duplicate-free. -/
theorem C4_witness :
    (keysOf (execute_copy_trade "tok" "BUY" (7/10) 10 false none dupState).1.open_positions).Nodup :=
  (C4_store_replaces dupState "tok" "BUY" (7/10) 10 false none
    (by simp [dupState, keysOf]) (Or.inl rfl)).1

/-! ### C10 — paper-trading success -/

/-- C10: with the client disconnected no external order is attempted and
execution is treated as success in both bots — the position is opened with
order reference "paper" and the entry counter (entries / trades_copied) is
bumped; the FAILED / ORDER_FAILED branch is reachable only while the client
is connected. -/
theorem C10_paper_mode (s : HPBotState) (cs : CopyBotState)
    (market_id t outcome side : String) (price size detected now : ℚ)
    (res : Option String) :
    ((execute_entry market_id t outcome price size detected false res now s).2 = .ENTERED
      ∧ (execute_entry market_id t outcome price size detected false res now s).1.stats.entries
          = s.stats.entries + 1
      ∧ (lookupA t (execute_entry market_id t outcome price size detected false res now s).1.open_positions).map
          HighProbPosition.order_id = some "paper")
    ∧ (∀ conn : Bool,
        (execute_entry market_id t outcome price size detected conn res now s).2 = .FAILED →
          conn = true)
    ∧ ((execute_copy_trade t side price size false res cs).2 = .COPY_BUY
      ∧ (execute_copy_trade t side price size false res cs).1.stats.trades_copied
          = cs.stats.trades_copied + 1
      ∧ (lookupA t (execute_copy_trade t side price size false res cs).1.open_positions).map
          CopyPosition.order_id = some "paper")
    ∧ (∀ conn : Bool,
        (execute_copy_trade t side price size conn res cs).2 = .ORDER_FAILED →
          conn = true) := by
  refine ⟨⟨?_, ?_, ?_⟩, ?_, ⟨?_, ?_, ?_⟩, ?_⟩
  · simp [execute_entry]
  · simp [execute_entry]
  · simp [execute_entry, lookupA_insertA_self, hpEntryPos]
  · intro conn h
    cases conn
    · simp [execute_entry] at h
    · rfl
  · simp [execute_copy_trade]
  · simp [execute_copy_trade]
  · simp [execute_copy_trade, lookupA_insertA_self, copyEntryPos]
  · intro conn h
    cases conn
    · simp [execute_copy_trade] at h
    · rfl

/-! ### C6 — exit evaluation order and the stop-loss scenario -/

/-- C6: the exit check tests stop-loss before take-profit and at most one exit
kind fires per position per tick (take-profit fires only when the stop-loss
condition does not hold); a buy at entry 0.50 with 20% stop-loss gets
stop-loss price 0.40, and a tick at current price 0.40 removes the position
from the store and credits the realized loss (here 10) to the risk ledger's
daily and weekly accumulators. -/
theorem C6_exit_order (pos : HighProbPosition) :
    (pos.current_price ≤ pos.stop_loss_price → exitKindOf pos = some .stop_loss)
    ∧ (exitKindOf pos = some .take_profit → ¬pos.current_price ≤ pos.stop_loss_price)
    ∧ (hpEntryPos c6state.cfg "m" "t6" "NO" (1/2) 50 (9/10) none).stop_loss_price = 2/5
    ∧ (check_exits ⟨0, 1⟩ c6state).open_positions = []
    ∧ (check_exits ⟨0, 1⟩ c6state).stats.stop_losses = 1
    ∧ (check_exits ⟨0, 1⟩ c6state).stats.exits = 1
    ∧ (check_exits ⟨0, 1⟩ c6state).risk.daily_loss = 10
    ∧ (check_exits ⟨0, 1⟩ c6state).risk.weekly_loss = 10 := by
  refine ⟨?_, ?_, ?_, ?_, ?_, ?_, ?_, ?_⟩
  · intro h
    simp [exitKindOf, h]
  · intro h hsl
    simp [exitKindOf, hsl] at h
  · simp only [hpEntryPos, c6state]
    norm_num
  · norm_num [check_exits, check_exits_step, exitKindOf, c6state, c6pos, hpPnl,
      record_loss, reset_if_needed, eraseA, discardSet]
  · norm_num [check_exits, check_exits_step, exitKindOf, c6state, c6pos, hpPnl,
      record_loss, reset_if_needed, eraseA, discardSet]
  · norm_num [check_exits, check_exits_step, exitKindOf, c6state, c6pos, hpPnl,
      record_loss, reset_if_needed, eraseA, discardSet]
  · norm_num [check_exits, check_exits_step, exitKindOf, c6state, c6pos, hpPnl,
      record_loss, reset_if_needed, eraseA, discardSet]
  · norm_num [check_exits, check_exits_step, exitKindOf, c6state, c6pos, hpPnl,
      record_loss, reset_if_needed, eraseA, discardSet]

/-- Witness for C6 at the scenario position: its current price 0.40 equals the
stop-loss price, so the stop-loss exit fires. -/
theorem C6_witness : exitKindOf c6pos = some .stop_loss :=
  (C6_exit_order c6pos).1 (by norm_num [c6pos])

/-! ### C5 — failed-order cooldown -/

theorem can_enter_fst (cfg : HighProbBotConfig) (today : CalDate) (r : RMState) (n : ℕ) :
    (can_enter cfg today r n).1 = reset_if_needed today r := by
  by_cases h1 : cfg.EMERGENCY_STOP <;>
    by_cases h2 : (reset_if_needed today r).daily_loss ≥ cfg.DAILY_LOSS_LIMIT_USDC <;>
      by_cases h3 : (reset_if_needed today r).weekly_loss ≥ cfg.WEEKLY_LOSS_LIMIT_USDC <;>
        by_cases h4 : n ≥ cfg.MAX_OPEN_POSITIONS <;>
          simp [can_enter, h1, h2, h3, h4]

/-- C5: a failed order placement stows `failure time + 5 minutes` in the
cooldown map for the traded token; while the current time is before that
deadline a signal on the token is dropped by the handler (only the lazy risk
rollover runs, nothing else changes), and once the deadline is reached the
cooldown guard no longer blocks, so the token is signable again (with the
gate open and the client in paper mode the handler then opens a position); a
token with an open position (in the dedup set) is never re-signaled at all. -/
theorem C5_failed_cooldown (s : HPBotState) (today : CalDate)
    (now now0 e : ℚ) (ids : List String) (mid t outcome : String)
    (p size detected : ℚ) (conn : Bool) (res : Option String) :
    ((execute_entry mid t outcome p size detected conn res now0 s).2 = .FAILED →
        lookupA t (execute_entry mid t outcome p size detected conn res now0 s).1.cooldown_until
          = some (now0 + COOLDOWN_MINUTES))
    ∧ (lookupA t s.cooldown_until = some e → now < e →
        handle_signal today now ids mid t outcome p conn res s
          = { s with risk := reset_if_needed today s.risk })
    ∧ (lookupA t s.cooldown_until = some e → ¬now < e →
        cooldownActive now t s.cooldown_until = false)
    ∧ (t ∈ s.already_entered →
        handle_signal today now ids mid t outcome p conn res s
          = { s with risk := reset_if_needed today s.risk })
    ∧ (t ∉ s.already_entered → cooldownActive now t s.cooldown_until = false →
        s.cfg.MEAN_REVERSION_MODE = false →
        (can_enter s.cfg today s.risk s.open_positions.length).2.1 = true →
        (lookupA t (handle_signal today now ids mid t outcome p false res s).open_positions).isSome
          = true) := by
  refine ⟨?_, ?_, ?_, ?_, ?_⟩
  · intro h
    cases conn with
    | false => simp [execute_entry] at h
    | true =>
        cases res with
        | none => simp [execute_entry, lookupA_insertA_self]
        | some oid => simp [execute_entry] at h
  · intro he hlt
    have hca : cooldownActive now t s.cooldown_until = true := by
      simp [cooldownActive, he, hlt]
    by_cases h1 : t ∈ s.already_entered
    · simp only [handle_signal, can_enter_fst]
      rw [if_pos h1]
    · simp only [handle_signal, can_enter_fst]
      rw [if_neg h1, if_pos hca]
  · intro he hge
    simp [cooldownActive, he, hge]
  · intro ht
    simp only [handle_signal, can_enter_fst]
    rw [if_pos ht]
  · intro hopen hca hmode hallowed
    simp only [handle_signal, can_enter_fst]
    rw [if_neg hopen]
    rw [if_neg (by rw [hca]; exact Bool.false_ne_true)]
    simp [hmode, hallowed, execute_entry, lookupA_insertA_self]

/-- Witness for C5: at time 7, before the cooldown deadline 10, a signal on
"t5" is dropped — only the lazy risk rollover happens. -/
theorem C5_witness :
    handle_signal ⟨0, 1⟩ 7 ["t5"] "m" "t5" "YES" (9/10) false none c5state
      = { c5state with risk := reset_if_needed ⟨0, 1⟩ c5state.risk } :=
  (C5_failed_cooldown c5state ⟨0, 1⟩ 7 0 10 ["t5"] "m" "t5" "YES" (9/10) 50 (9/10) false none).2.1
    (by simp [c5state, lookupA]) (by norm_num)

/-! ### C8 — mean-reversion side selection -/

/-- C8: in mean-reversion mode a trigger at price p inside the entry band on
one outcome ("YES") produces the candidate on the market's complementary
token (the first other id in `clobTokenIds`) with side "NO" priced
`round(1 − p, 4)`, and that candidate is what gets opened. -/
theorem C8_mean_reversion_candidate (s : HPBotState) (today : CalDate) (now : ℚ)
    (ids : List String) (mid t tt : String) (p : ℚ) (res : Option String)
    (hmode : s.cfg.MEAN_REVERSION_MODE = true)
    (_hband : entry_band_ok s.cfg p)
    (hopen : t ∉ s.already_entered)
    (hcd : cooldownActive now t s.cooldown_until = false)
    (hallowed : (can_enter s.cfg today s.risk s.open_positions.length).2.1 = true)
    (htt : get_opposite_token ids t = some tt) :
    (lookupA tt (handle_signal today now ids mid t "YES" p false res s).open_positions).map
        HighProbPosition.entry_price = some (pyRound 4 (1 - p))
    ∧ (lookupA tt (handle_signal today now ids mid t "YES" p false res s).open_positions).map
        HighProbPosition.side = some "NO" := by
  constructor <;>
    (simp only [handle_signal, can_enter_fst]
     rw [if_neg hopen]
     rw [if_neg (by rw [hcd]; exact Bool.false_ne_true)]
     simp [hmode, hallowed, htt, execute_entry, lookupA_insertA_self, hpEntryPos])

/-- Witness for C8: with the default band [0.88, 0.91], a trigger at 0.90 on
the "yes" token of a two-token market yields a "NO" candidate on the "no"
token at price round(1 − 0.90, 4) = 0.10, which is opened at that price. -/
theorem C8_witness :
    (lookupA "no" (handle_signal ⟨0, 1⟩ 0 ["yes", "no"] "m" "yes" "YES" (9/10) false none
        { c5state with cooldown_until := [] }).open_positions).map
      HighProbPosition.entry_price = some (1/10) := by
  have h := (C8_mean_reversion_candidate { c5state with cooldown_until := [] } ⟨0, 1⟩ 0
    ["yes", "no"] "m" "yes" "no" (9/10) none
    (by simp [c5state, hpDefaultCfg])
    (by constructor <;> norm_num [c5state, hpDefaultCfg])
    (by simp [c5state])
    (by simp [c5state, cooldownActive, lookupA])
    (by norm_num [can_enter, reset_if_needed, c5state, hpDefaultCfg])
    (by simp [get_opposite_token])).1
  rw [h]
  norm_num [pyRound, rhe]

/-! ### C3 — emergency stop latch -/

theorem keysOf_filter_subset {α : Type} (q : String × α → Bool) (l : List (String × α)) :
    ∀ k, k ∈ keysOf (l.filter q) → k ∈ keysOf l := by
  intro k hk
  obtain ⟨p, hp, rfl⟩ := List.mem_map.mp hk
  exact List.mem_map.mpr ⟨p, (List.mem_filter.mp hp).1, rfl⟩

theorem handle_signal_emergency (today : CalDate) (now : ℚ) (ids : List String)
    (mid t outcome : String) (p : ℚ) (conn : Bool) (res : Option String)
    (s : HPBotState) (h : s.cfg.EMERGENCY_STOP = true) :
    (handle_signal today now ids mid t outcome p conn res s).cfg = s.cfg
    ∧ (handle_signal today now ids mid t outcome p conn res s).open_positions
        = s.open_positions := by
  have hall : (can_enter s.cfg today s.risk s.open_positions.length).2.1 = false := by
    simp [can_enter, h]
  simp only [handle_signal]
  by_cases h1 : t ∈ s.already_entered
  · rw [if_pos h1]
    exact ⟨rfl, rfl⟩
  · rw [if_neg h1]
    by_cases h2 : cooldownActive now t s.cooldown_until = true
    · rw [if_pos h2]
      exact ⟨rfl, rfl⟩
    · rw [if_neg h2]
      simp [hall]

theorem update_positions_keys (f : String → Option ℚ) (s : HPBotState) :
    keysOf (update_positions f s).open_positions = keysOf s.open_positions
    ∧ (update_positions f s).cfg = s.cfg := by
  constructor
  · simp only [update_positions, keysOf, List.map_map]
    apply List.map_congr_left
    intro p hp
    cases hf : f p.1 <;> simp [hf]
  · rfl

theorem check_exits_step_cfg_keys (today : CalDate) (s : HPBotState)
    (item : String × HighProbPosition) :
    (check_exits_step today s item).cfg = s.cfg
    ∧ ∀ k, k ∈ keysOf (check_exits_step today s item).open_positions →
        k ∈ keysOf s.open_positions := by
  unfold check_exits_step
  cases hek : exitKindOf item.2 with
  | none => exact ⟨rfl, fun k hk => hk⟩
  | some kind =>
      cases kind
      · exact ⟨rfl, fun k hk => keysOf_filter_subset _ _ k hk⟩
      · exact ⟨rfl, fun k hk => keysOf_filter_subset _ _ k hk⟩

theorem check_exits_fold_cfg_keys (today : CalDate) :
    ∀ (items : List (String × HighProbPosition)) (s : HPBotState),
      ((items.foldl (check_exits_step today) s).cfg = s.cfg
       ∧ ∀ k, k ∈ keysOf (items.foldl (check_exits_step today) s).open_positions →
           k ∈ keysOf s.open_positions) := by
  intro items
  induction items with
  | nil => exact fun s => ⟨rfl, fun k hk => hk⟩
  | cons it rest ih =>
      intro s
      obtain ⟨hc, hks⟩ := ih (check_exits_step today s it)
      obtain ⟨hc0, hks0⟩ := check_exits_step_cfg_keys today s it
      exact ⟨hc.trans hc0, fun k hk => hks0 k (hks k hk)⟩

theorem hpStep_emergency_invariant (s : HPBotState) (e : HPEvent)
    (h : s.cfg.EMERGENCY_STOP = true) :
    (hpStep s e).cfg.EMERGENCY_STOP = true
    ∧ ∀ k, k ∈ keysOf (hpStep s e).open_positions → k ∈ keysOf s.open_positions := by
  cases e with
  | start =>
      unfold hpStep
      split_ifs <;> exact ⟨h, fun k hk => hk⟩
  | stop => exact ⟨h, fun k hk => hk⟩
  | emergency => exact ⟨rfl, fun k hk => hk⟩
  | signal today now ids mid t outcome p conn res =>
      obtain ⟨hc, hp⟩ := handle_signal_emergency today now ids mid t outcome p conn res s h
      refine ⟨?_, ?_⟩
      · show (handle_signal today now ids mid t outcome p conn res s).cfg.EMERGENCY_STOP = true
        rw [hc]
        exact h
      · intro k hk
        show k ∈ keysOf s.open_positions
        rw [show (hpStep s (.signal today now ids mid t outcome p conn res)).open_positions
            = s.open_positions from hp] at hk
        exact hk
  | refresh f =>
      obtain ⟨hk, hc⟩ := update_positions_keys f s
      refine ⟨?_, ?_⟩
      · show (update_positions f s).cfg.EMERGENCY_STOP = true
        rw [hc]
        exact h
      · intro k hkm
        show k ∈ keysOf s.open_positions
        rw [show (hpStep s (.refresh f)).open_positions = (update_positions f s).open_positions from rfl] at hkm
        rw [hk] at hkm
        exact hkm
  | exits today =>
      obtain ⟨hc, hks⟩ := check_exits_fold_cfg_keys today s.open_positions s
      refine ⟨?_, ?_⟩
      · show (check_exits today s).cfg.EMERGENCY_STOP = true
        unfold check_exits
        rw [hc]
        exact h
      · intro k hk
        exact hks k hk
  | loss today a => exact ⟨h, fun k hk => hk⟩

theorem hpRun_emergency_invariant (es : List HPEvent) :
    ∀ s : HPBotState, s.cfg.EMERGENCY_STOP = true →
      (hpRun s es).cfg.EMERGENCY_STOP = true
      ∧ ∀ k, k ∈ keysOf (hpRun s es).open_positions → k ∈ keysOf s.open_positions := by
  induction es with
  | nil => exact fun s h => ⟨h, fun k hk => hk⟩
  | cons e rest ih =>
      intro s h
      obtain ⟨h1, h2⟩ := hpStep_emergency_invariant s e h
      obtain ⟨h3, h4⟩ := ih (hpStep s e) h1
      exact ⟨h3, fun k hk => h2 k (h4 k hk)⟩

/-- C3: the `emergency_stop` operation sets the config flag and stops the
loop; once the flag is set, no sequence of engine operations (stop, restart,
signals, refreshes, exit scans, loss bookings — reconfiguration is not an
engine operation, the dashboard builds a new bot for that) ever clears it,
every later gate check returns allowed = false, and no new position id ever
appears in the store. -/
theorem C3_emergency_stop_latch (s : HPBotState) (es : List HPEvent)
    (today : CalDate) (n : ℕ) (h : s.cfg.EMERGENCY_STOP = true) :
    (hpRun s es).cfg.EMERGENCY_STOP = true
    ∧ (can_enter (hpRun s es).cfg today (hpRun s es).risk n).2.1 = false
    ∧ (∀ k, k ∈ keysOf (hpRun s es).open_positions → k ∈ keysOf s.open_positions)
    ∧ (∀ s' : HPBotState, (hpStep s' .emergency).cfg.EMERGENCY_STOP = true
        ∧ (hpStep s' .emergency).running = false) := by
  obtain ⟨h1, h2⟩ := hpRun_emergency_invariant es s h
  refine ⟨h1, ?_, h2, fun s' => ⟨rfl, rfl⟩⟩
  simp [can_enter, h1]

/-- Witness for C3: starting from a stopped state with the flag set, running
stop, restart, a signal and an exit scan leaves the gate closed. -/
theorem C3_witness :
    (can_enter (hpRun { c5state with cfg := { hpDefaultCfg with EMERGENCY_STOP := true } }
        [.stop, .start, .signal ⟨0, 1⟩ 0 ["yes", "no"] "m" "yes" "YES" (9/10) false none,
         .exits ⟨0, 1⟩]).cfg ⟨0, 1⟩
      (hpRun { c5state with cfg := { hpDefaultCfg with EMERGENCY_STOP := true } }
        [.stop, .start, .signal ⟨0, 1⟩ 0 ["yes", "no"] "m" "yes" "YES" (9/10) false none,
         .exits ⟨0, 1⟩]).risk 0).2.1 = false :=
  (C3_emergency_stop_latch { c5state with cfg := { hpDefaultCfg with EMERGENCY_STOP := true } }
    [.stop, .start, .signal ⟨0, 1⟩ 0 ["yes", "no"] "m" "yes" "YES" (9/10) false none,
     .exits ⟨0, 1⟩] ⟨0, 1⟩ 0 rfl).2.1

/-! ### C9 — open-then-exit round trip -/

theorem mem_discard_iff (x k : String) (l : List String) :
    x ∈ discardSet k l ↔ x ∈ l ∧ x ≠ k := by
  simp [discardSet, List.mem_filter]

theorem not_mem_keys_eraseA {α : Type} (k : String) (l : List (String × α)) :
    k ∉ keysOf (eraseA k l) := by
  intro hk
  obtain ⟨p, hp, hpk⟩ := List.mem_map.mp hk
  have h2 := (List.mem_filter.mp hp).2
  simp only [eraseA] at h2 ⊢
  rw [hpk] at h2
  simp at h2

theorem insertA_mem {α : Type} (k : String) (v : α) (l : List (String × α)) :
    (k, v) ∈ insertA k v l := by
  unfold insertA
  split_ifs with hany
  · obtain ⟨x, hx, hxk⟩ := List.any_eq_true.mp hany
    have hxk' : x.1 = k := by simpa using hxk
    exact List.mem_map.mpr ⟨x, hx, by simp [hxk']⟩
  · simp

theorem check_exits_step_absent (today : CalDate) (s : HPBotState)
    (item : String × HighProbPosition) (t : String) :
    (t ∉ s.already_entered → t ∉ (check_exits_step today s item).already_entered)
    ∧ (t ∉ keysOf s.cooldown_until → t ∉ keysOf (check_exits_step today s item).cooldown_until)
    ∧ (t ∉ keysOf s.open_positions → t ∉ keysOf (check_exits_step today s item).open_positions) := by
  unfold check_exits_step
  cases hek : exitKindOf item.2 with
  | none => exact ⟨id, id, id⟩
  | some kind =>
      cases kind <;>
        exact ⟨fun ha hm => ha ((mem_discard_iff t item.1 s.already_entered).mp hm).1,
               fun ha hm => ha (keysOf_filter_subset _ _ t hm),
               fun ha hm => ha (keysOf_filter_subset _ _ t hm)⟩

theorem check_exits_step_erases (today : CalDate) (s : HPBotState)
    (t : String) (pos : HighProbPosition) (h : exitKindOf pos ≠ none) :
    t ∉ (check_exits_step today s (t, pos)).already_entered
    ∧ t ∉ keysOf (check_exits_step today s (t, pos)).cooldown_until
    ∧ t ∉ keysOf (check_exits_step today s (t, pos)).open_positions := by
  unfold check_exits_step
  cases hek : exitKindOf (t, pos).2 with
  | none => exact absurd hek h
  | some kind =>
      cases kind <;>
        exact ⟨fun hm => ((mem_discard_iff t t s.already_entered).mp hm).2 rfl,
               not_mem_keys_eraseA t _,
               not_mem_keys_eraseA t _⟩

theorem check_exits_fold_absent (today : CalDate) (t : String) :
    ∀ (items : List (String × HighProbPosition)) (s : HPBotState),
      (t ∉ s.already_entered ∧ t ∉ keysOf s.cooldown_until ∧ t ∉ keysOf s.open_positions) →
      (t ∉ (items.foldl (check_exits_step today) s).already_entered
       ∧ t ∉ keysOf (items.foldl (check_exits_step today) s).cooldown_until
       ∧ t ∉ keysOf (items.foldl (check_exits_step today) s).open_positions) := by
  intro items
  induction items with
  | nil => exact fun s h => h
  | cons it rest ih =>
      intro s h
      obtain ⟨h1, h2, h3⟩ := h
      obtain ⟨g1, g2, g3⟩ := check_exits_step_absent today s it t
      exact ih _ ⟨g1 h1, g2 h2, g3 h3⟩

theorem check_exits_fires (today : CalDate) (t : String) (pos : HighProbPosition)
    (pre post : List (String × HighProbPosition)) (s : HPBotState)
    (h : exitKindOf pos ≠ none) :
    t ∉ ((pre ++ (t, pos) :: post).foldl (check_exits_step today) s).already_entered
    ∧ t ∉ keysOf ((pre ++ (t, pos) :: post).foldl (check_exits_step today) s).cooldown_until
    ∧ t ∉ keysOf ((pre ++ (t, pos) :: post).foldl (check_exits_step today) s).open_positions := by
  rw [List.foldl_append, List.foldl_cons]
  exact check_exits_fold_absent today t post _
    (check_exits_step_erases today _ t pos h)

/-- C9: open a position (any successful entry), refresh its current price to
exactly its stop-loss price, then run the exit check — the instrument id is
afterwards absent from the `already_entered` dedup set, the cooldown map and
the position store, so it is eligible again for a future entry signal. -/
theorem C9_round_trip (s : HPBotState) (mid t outcome : String)
    (price size detected now : ℚ) (today : CalDate) (conn : Bool) (res : Option String)
    (f : String → Option ℚ)
    (hsucc : conn = false ∨ res.isSome = true)
    (hf : f t = some (price * (1 - s.cfg.STOP_LOSS_PCT / 100))) :
    t ∉ (check_exits today (update_positions f
          (execute_entry mid t outcome price size detected conn res now s).1)).already_entered
    ∧ t ∉ keysOf (check_exits today (update_positions f
          (execute_entry mid t outcome price size detected conn res now s).1)).cooldown_until
    ∧ t ∉ keysOf (check_exits today (update_positions f
          (execute_entry mid t outcome price size detected conn res now s).1)).open_positions := by
  have hmem : ∃ r0 : Option String,
      (execute_entry mid t outcome price size detected conn res now s).1.open_positions
        = insertA t (hpEntryPos s.cfg mid t outcome price size detected r0) s.open_positions := by
    rcases hsucc with hc | hr
    · subst hc
      exact ⟨none, rfl⟩
    · cases conn with
      | false => exact ⟨none, rfl⟩
      | true =>
          obtain ⟨oid, rfl⟩ := Option.isSome_iff_exists.mp hr
          exact ⟨some oid, rfl⟩
  obtain ⟨r0, hP⟩ := hmem
  have hmem2 : (t, hpEntryPos s.cfg mid t outcome price size detected r0)
      ∈ (execute_entry mid t outcome price size detected conn res now s).1.open_positions := by
    rw [hP]
    exact insertA_mem t _ s.open_positions
  have hmem3 : (t, { hpEntryPos s.cfg mid t outcome price size detected r0 with
        current_price := price * (1 - s.cfg.STOP_LOSS_PCT / 100) })
      ∈ (update_positions f
          (execute_entry mid t outcome price size detected conn res now s).1).open_positions := by
    simp only [update_positions]
    refine List.mem_map.mpr ⟨(t, hpEntryPos s.cfg mid t outcome price size detected r0), hmem2, ?_⟩
    simp [hf]
  obtain ⟨pre, post, hsplit⟩ := List.append_of_mem hmem3
  have hexit : exitKindOf { hpEntryPos s.cfg mid t outcome price size detected r0 with
      current_price := price * (1 - s.cfg.STOP_LOSS_PCT / 100) } ≠ none := by
    simp [exitKindOf, hpEntryPos]
  have hfin := check_exits_fires today t _ pre post
    (update_positions f (execute_entry mid t outcome price size detected conn res now s).1) hexit
  unfold check_exits
  rw [hsplit]
  exact hfin

/-- Witness for C9: paper-opening "t5" at 0.90 (15% stop-loss ⇒ 0.765), a
tick at exactly 0.765 and an exit scan leave "t5" absent from the dedup set. -/
theorem C9_witness :
    "t5" ∉ (check_exits ⟨0, 1⟩ (update_positions
        (fun x => if x = "t5" then some (153/200) else none)
        (execute_entry "m" "t5" "NO" (9/10) 50 (9/10) false none 0 c5state).1)).already_entered :=
  (C9_round_trip c5state "m" "t5" "NO" (9/10) 50 (9/10) 0 ⟨0, 1⟩ false none
    (fun x => if x = "t5" then some (153/200) else none)
    (Or.inl rfl) (by norm_num [c5state, hpDefaultCfg])).1
